import Mathlib

/-!
Shallow embedding of the Paperback/Komga extension
(src/src/Paperback/Paperback.ts: the source plugin class `Paperback`, its
request interceptor `KomgaRequestInterceptor`, and the bundled tracker
plugin appended to the same file).

Modelling conventions:
- JS numbers that the claims compare (timestamps, sortKeys, progress
  values, HTTP status codes) are embedded as `ℚ` or `Nat`; no claim
  depends on floating-point rounding or NaN.
- A JS header object is an association list with at most one binding per
  key; property read/update follow JS object semantics.
- `requestManager.schedule` is an oracle `String → Except String _`
  keyed by the full request URL; `Except.error` models a rejected
  promise (transport error), which the TS code observes as a thrown
  exception at the `await`.
- An `async` TS function is a function into `Except String _`:
  `Except.error` models a rejected promise / thrown error.
-/

namespace Komga

/-- A JS header object: one value per key (JS objects cannot bind a key twice). -/
abbrev Headers := List (String × String)

/-- JS property read `hs[k]`: the bound value, or none when the property is absent
(TS `== null` is true exactly on the absent case here). -/
def headerGet : Headers → String → Option String
  | [], _ => none
  | p :: rest, k => if p.1 == k then some p.2 else headerGet rest k

/-- JS property write `hs[k] = v`: replaces the binding in place when present,
appends it otherwise (also the effect of a later key in an object spread). -/
def setHeader : Headers → String → String → Headers
  | [], k, v => [(k, v)]
  | p :: rest, k, v => if p.1 == k then (k, v) :: rest else p :: setHeader rest k v

/-- KomgaRequestInterceptor.interceptRequest (Paperback.ts lines 93-117).
`auth` is the value produced by `getAuthorizationString(this.stateManager)`,
awaited only on the branch where no authorization header is present.
If `request.headers` is undefined it is first replaced by `{}`; then the
authorization header is injected only when `request.headers.authorization == null`. -/
def interceptRequest (auth : String) (headers : Option Headers) : Headers :=
  let hs := headers.getD []
  match headerGet hs "authorization" with
  | none => setHeader hs "authorization" auth
  | some _ => hs

/-- Bundled tracker plugin interceptor (Paperback.ts lines 1166-1185).
`stored` is the keychain value; `getAuthorizationString` throws when it is null,
rejecting the interception.  On success the header object is rebuilt as
`{...(headers ?? {}), content-type, accept, ...(auth != null ? {authorization} : {})}`;
the authorization spread comes last, so it wins over any existing binding. -/
def trackerInterceptRequest (stored : Option String) (headers : Option Headers) :
    Except String Headers :=
  match stored with
  | none => Except.error "Unset credentials in source settings"
  | some auth =>
    let hs := headers.getD []
    Except.ok (setHeader (setHeader (setHeader hs "content-type" "application/json")
      "accept" "application/json") "authorization" auth)

/-- A raw response body `response.data`: either a JSON string or an
already-decoded structure (the two sides of `typeof response.data === 'string'`). -/
inductive RawBody (J : Type) where
  | str (s : String)
  | decoded (v : J)

/-- The response-normalization pattern used by every endpoint
(`typeof d === 'string' ? JSON.parse(d) : d`).  `parse` abstracts `JSON.parse`
(a deterministic function; `none` models the parse throwing). -/
def normalizeResp {J : Type} (parse : String → Option J) : RawBody J → Option J
  | RawBody.str s => parse s
  | RawBody.decoded v => some v

/-- A book (chapter) record as consumed by the progress form:
`book.id` and `book.metadata.numberSort`. -/
structure Book where
  id : String
  numberSort : ℚ
deriving DecidableEq

/-- The HTTP requests that getMangaProgressManagementForm.onSubmit can issue
(Paperback.ts lines 592-637):
the chapter-list fetch, the series-wide read-progress DELETE, and the
per-book read-progress PATCH (body page null, completed true). -/
inductive HttpReq where
  | getBooks (seriesId : String)
  | deleteSeriesProgress (seriesId : String)
  | markRead (bookId : String)
deriving DecidableEq

/-- getMangaProgressManagementForm.onSubmit (Paperback.ts lines 592-637), as the
ordered list of requests it issues.  `progress` is `values?.['progress']`
(none when null/undefined), `booksReadCount` is `tempData.booksReadCount`
captured when the form sections were built, and `booksContent` is the decoded
`result?.content` of the chapter-list fetch (none when null, in which case the
handler logs and stops after the fetch). -/
def onSubmitRequests (mangaId : String) (progress : Option ℚ) (booksReadCount : ℚ)
    (booksContent : Option (List Book)) : List HttpReq :=
  match progress with
  | none => []
  | some p =>
    if p = booksReadCount then []
    else
      HttpReq.getBooks mangaId ::
        match booksContent with
        | none => []
        | some books =>
          HttpReq.deleteSeriesProgress mangaId ::
            (books.filter (fun b => decide (b.numberSort ≤ p))).map
              (fun b => HttpReq.markRead b.id)

/-- Komga-side effect of one request on the remote per-book read state
(`st : bookId → read?`).  `inSeries b sid` says book `b` belongs to series
`sid`; DELETE `/series/sid/read-progress` resets every book of the series,
PATCH `/books/bid/read-progress` with completed true marks that book read,
and the GET mutates nothing. -/
def applyReq (inSeries : String → String → Bool) (st : String → Bool) :
    HttpReq → (String → Bool)
  | HttpReq.getBooks _ => st
  | HttpReq.deleteSeriesProgress sid => fun b => if inSeries b sid then false else st b
  | HttpReq.markRead bid => fun b => if b == bid then true else st b

/-- Remote read state after a request sequence is applied in order. -/
def applyReqs (inSeries : String → String → Bool) (st : String → Bool)
    (reqs : List HttpReq) : String → Bool :=
  reqs.foldl (applyReq inSeries) st

/-- capitalize (Paperback.ts lines 75-77): uppercase the first character when it
matches the regex class backslash-w (ASCII letter, digit or underscore). -/
def capitalize (tag : String) : String :=
  match tag.data with
  | [] => ""
  | c :: cs => String.mk ((if c.isAlphanum || c == '_' then c.toUpper else c) :: cs)

/-- A tag as built by `App.createTag({id, label})`. -/
structure Tag where
  id : String
  label : String
deriving DecidableEq

/-- A tag section as built by `App.createTagSection({id, label, tags})`. -/
structure TagSection where
  id : String
  label : String
  tags : List Tag
deriving DecidableEq

/-- A remote `{id, name}` record (a collection or a library). -/
structure NamedItem where
  id : String
  name : String
deriving DecidableEq

/-- The post-fetch part of getTags (Paperback.ts lines 182-204): build the four
sections, then `tagSections.splice(2, 1)` removes the collections section when
`collectionResult.content.length <= 1`. -/
def getTagsSections (genres tagsList : List String)
    (collectionsContent libraries : List NamedItem) : List TagSection :=
  let s0 : TagSection :=
    ⟨"0", "genres", genres.map (fun e => ⟨"genre-" ++ e, capitalize e⟩)⟩
  let s1 : TagSection :=
    ⟨"1", "tags", tagsList.map (fun e => ⟨"tag-" ++ e, capitalize e⟩)⟩
  let s2 : TagSection :=
    ⟨"2", "collections",
      collectionsContent.map (fun e => ⟨"collection-" ++ e.id, capitalize e.name⟩)⟩
  let s3 : TagSection :=
    ⟨"3", "libraries", libraries.map (fun e => ⟨"library-" ++ e.id, capitalize e.name⟩)⟩
  if collectionsContent.length ≤ 1 then [s0, s1, s3] else [s0, s1, s2, s3]

/-- A series/book record as consumed by the homepage and view-more tiles:
`id`, `seriesId` (books only) and `metadata.title`. -/
structure SerieObj where
  id : String
  seriesId : String
  title : String
deriving DecidableEq

/-- The decoded JSON payload shapes the extension reads: a plain string array
(genres, series tags), a plain `{id,name}` array (libraries), a paged object
whose `content` is `{id,name}` records (collections) and a paged object whose
`content` is series/book records (series listings). -/
inductive JVal where
  | arrS (xs : List String)
  | arrNamed (xs : List NamedItem)
  | pagedNamed (content : List NamedItem)
  | pagedSeries (content : List SerieObj)
deriving DecidableEq

/-- Reading a payload as a string array; any other shape makes the dynamic
field access throw (modelled as an error). -/
def asStringArray : JVal → Except String (List String)
  | JVal.arrS xs => Except.ok xs
  | _ => Except.error "malformed response"

/-- Reading `payload.content` as `{id,name}` records. -/
def asNamedContent : JVal → Except String (List NamedItem)
  | JVal.pagedNamed xs => Except.ok xs
  | _ => Except.error "malformed response"

/-- Reading a payload as a plain `{id,name}` array. -/
def asNamedArray : JVal → Except String (List NamedItem)
  | JVal.arrNamed xs => Except.ok xs
  | _ => Except.error "malformed response"

/-- Reading `payload.content` as series/book records. -/
def asSeriesContent : JVal → Except String (List SerieObj)
  | JVal.pagedSeries xs => Except.ok xs
  | _ => Except.error "malformed response"

/-- The ambient state an operation runs against.  `komgaAPI` is the stored
server base URL; its absence means the server is unconfigured (modelled from
the spec ServerConfig and the null checks at the call sites, since Common.ts
is not under src/).  `fetch url` is `requestManager.schedule` of a request
with that full URL; an error is a rejected promise. -/
structure Env where
  komgaAPI : Option String
  fetch : String → Except String JVal

/-- JS template interpolation of the possibly-null komgaAPI value
(a null base URL interpolates as the text null). -/
def apiString (o : Option String) : String := o.getD "null"

/-- The try-block of getTags (Paperback.ts lines 148-169): the four sequential
fetches; the first rejection aborts the block. -/
def getTagsFetch (env : Env) : Except String (JVal × JVal × JVal × JVal) := do
  let api := apiString env.komgaAPI
  let g ← env.fetch (api ++ "/genres")
  let t ← env.fetch (api ++ "/tags/series")
  let c ← env.fetch (api ++ "/collections")
  let l ← env.fetch (api ++ "/libraries")
  pure (g, t, c, l)

/-- The placeholder section returned when the getTags try-block fails. -/
def serverUnavailableSection : TagSection := ⟨"-1", "Server unavailable", []⟩

/-- getTags (Paperback.ts lines 138-205): on any failure inside the try-block,
return the placeholder list; afterwards decode the four payloads (this part is
deliberately outside the try/catch and may fail). -/
def getTags (env : Env) : Except String (List TagSection) :=
  match getTagsFetch env with
  | Except.error _ => Except.ok [serverUnavailableSection]
  | Except.ok (g, t, c, l) => do
    let genresResult ← asStringArray g
    let tagsResult ← asStringArray t
    let collectionResult ← asNamedContent c
    let libraryResult ← asNamedArray l
    pure (getTagsSections genresResult tagsResult collectionResult libraryResult)

/-- A homepage tile as built by `App.createPartialSourceManga`. -/
structure Tile where
  title : String
  image : String
  mangaId : String
deriving DecidableEq

/-- The two persisted display-preference flags read by getHomePageSections. -/
structure HomeOptions where
  showOnDeck : Bool
  showContinueReading : Bool

/-- One `sectionCallback` invocation observed by the host: a section announced
with empty items, a section re-announced with its tiles, or the
settings-unset placeholder section. -/
inductive HomeEvent where
  | emptySection (id : String)
  | populatedSection (id : String) (tiles : List Tile)
  | unsetSection (tiles : List Tile)
deriving DecidableEq

/-- Modelled from the spec: getServerUnavailableMangaTiles lives in Common.ts,
which is not under src/; per spec section 4.5 it yields a single informational
placeholder tile. -/
def serverUnavailableMangaTiles : List Tile :=
  [⟨"Go to source settings to set your Komga server credentials.", "", "placeholder"⟩]

/-- The per-section request URL from the switch in getHomePageSections
(Paperback.ts lines 390-410), apiPath concatenated with its params. -/
def sectionRequestUrl (api id : String) : String :=
  if id == "ondeck" then api ++ "/books/" ++ id ++ "?page=0&size=20&deleted=false"
  else if id == "continue" then
    api ++ "/books" ++ "?sort=readProgress.readDate,desc&read_status=IN_PROGRESS&page=0&size=20&deleted=false"
  else api ++ "/series/" ++ id ++ "?page=0&size=20&deleted=false"

/-- The per-section thumbnail base path from the same switch. -/
def sectionThumbPath (api id : String) : String :=
  if id == "ondeck" || id == "continue" then api ++ "/books" else api ++ "/series"

/-- Whether the section reads `serie['seriesId']` (book listings) rather than
`serie['id']` (series listings) for the tile mangaId. -/
def sectionUsesSeriesId (id : String) : Bool :=
  id == "ondeck" || id == "continue"

/-- Tiles built from a section fetch result (Paperback.ts lines 420-431). -/
def sectionTiles (thumbPath : String) (useSeriesId : Bool) (content : List SerieObj) :
    List Tile :=
  content.map (fun serie =>
    ⟨serie.title, thumbPath ++ "/" ++ serie.id ++ "/thumbnail",
      if useSeriesId then serie.seriesId else serie.id⟩)

/-- The section id list built by getHomePageSections in order (ondeck and
continue only when their preference flags are set, then new and updated). -/
def homeSectionIds (opts : HomeOptions) : List String :=
  (if opts.showOnDeck then ["ondeck"] else []) ++
    (if opts.showContinueReading then ["continue"] else []) ++ ["new", "updated"]

/-- getHomePageSections (Paperback.ts lines 330-438) as the event sequence
delivered to the host.  When the server is unconfigured it announces the
single unset placeholder section and returns.  Otherwise the loop announces
every section empty synchronously, then each section fetch settles; a fetch
has no catch of its own, so its rejection propagates through the awaited
`Promise.all` and the whole operation rejects. -/
def getHomePageSections (env : Env) (opts : HomeOptions) : Except String (List HomeEvent) :=
  match env.komgaAPI with
  | none => Except.ok [HomeEvent.unsetSection serverUnavailableMangaTiles]
  | some api => do
    let ids := homeSectionIds opts
    let results ← ids.mapM (fun sid => do
      let v ← env.fetch (sectionRequestUrl api sid)
      let content ← asSeriesContent v
      pure (HomeEvent.populatedSection sid
        (sectionTiles (sectionThumbPath api sid) (sectionUsesSeriesId sid) content)))
    pure (ids.map HomeEvent.emptySection ++ results)

/-- A record of the `/series/updated` listing as read by filterUpdatedManga:
`serie.id` and `serie.metadata.lastModified` (a timestamp). -/
structure UpdSerie where
  id : String
  lastModified : ℚ
deriving DecidableEq

/-- The JS values compared by `ids.includes(serie)` in filterUpdatedManga:
the candidate array holds id strings, while `serie` is a freshly parsed
series object. -/
inductive JsVal where
  | str (s : String)
  | serieObj (s : UpdSerie)
deriving DecidableEq

/-- JS SameValueZero as used by Array.prototype.includes on these values:
two strings compare by content; an object is never equal to a string, and a
freshly parsed object is compared by reference and so is never equal to a
pre-existing array element. -/
def jsStrictEq : JsVal → JsVal → Bool
  | JsVal.str a, JsVal.str b => a == b
  | _, _ => false

/-- `l.includes(v)` under the above equality. -/
def jsIncludes (l : List JsVal) (v : JsVal) : Bool :=
  l.any (fun e => jsStrictEq e v)

/-- The inner for-loop of filterUpdatedManga (Paperback.ts lines 487-497) over
one page of results: an item at or after the watermark is pushed onto
`foundIds` when `ids.includes(serie)` holds (note the code pushes and tests
the series object itself, not its id); an older item breaks the loop and
clears loadMore (the Bool result). -/
def pageLoop (time : ℚ) (ids : List JsVal) :
    List UpdSerie → List JsVal → (List JsVal × Bool)
  | [], found => (found, true)
  | serie :: rest, found =>
    if time ≤ serie.lastModified then
      pageLoop time ids rest
        (if jsIncludes ids (JsVal.serieObj serie) then found ++ [JsVal.serieObj serie]
         else found)
    else (found, false)

/-- The while-loop of filterUpdatedManga (Paperback.ts lines 479-510) over the
successive page contents returned by `/series/updated`.  After each page the
callback fires with the accumulated list when it is nonempty; the walk stops
when an item fell before the watermark or the page was empty (the exhausted
page list stands for the server returning an empty page).  Returns the final
accumulator and the sequence of callback payloads. -/
def filterUpdatedWalk (time : ℚ) (ids : List JsVal) :
    List (List UpdSerie) → List JsVal → (List JsVal × List (List JsVal))
  | [], found => (found, if 0 < found.length then [found] else [])
  | content :: rest, found =>
    let r := pageLoop time ids content found
    let cbs : List (List JsVal) := if 0 < r.1.length then [r.1] else []
    if r.2 = true ∧ content.length ≠ 0 then
      let w := filterUpdatedWalk time ids rest r.1
      (w.1, cbs ++ w.2)
    else (r.1, cbs)

/-- filterUpdatedManga: the candidate ids arrive as strings; pages are the
successive decoded `result.content` lists. -/
def filterUpdatedManga (time : ℚ) (ids : List String) (pages : List (List UpdSerie)) :
    List JsVal × List (List JsVal) :=
  filterUpdatedWalk time (ids.map JsVal.str) pages []

/-- Whether a value carried in a callback payload is an item strictly older
than the watermark. -/
def olderThanWatermark (time : ℚ) : JsVal → Bool
  | JsVal.serieObj s => decide (s.lastModified < time)
  | JsVal.str _ => false

/-- getViewMoreItems (Paperback.ts lines 439-466).  `pages` gives the decoded
`result.content` of the listing at each page number; `metadata` is the cursor
(`metadata?.page ?? 0`).  Returns the page numbers requested (always exactly
the one), the tiles, and the next cursor: undefined when zero tiles came back,
else the page advanced by one. -/
def getViewMoreItems (api : String) (pages : Nat → List SerieObj) (metadata : Option Nat) :
    List Nat × List Tile × Option Nat :=
  let page := metadata.getD 0
  let tiles := (pages page).map (fun serie =>
    ⟨serie.title, api ++ "/series/" ++ serie.id ++ "/thumbnail", serie.id⟩)
  ([page], tiles, if tiles.length = 0 then none else some (page + 1))

/-- The host-side walk over getViewMoreItems: call it at the current page and
continue at the returned cursor until it is undefined (fuel bounds the walk).
Returns all requested page numbers and all tiles yielded. -/
def viewMoreWalk (api : String) (pages : Nat → List SerieObj) :
    Nat → Nat → List Nat × List Tile
  | 0, _ => ([], [])
  | Nat.succ fuel, page =>
    let r := getViewMoreItems api pages (some page)
    match r.2.2 with
    | none => (r.1, r.2.1)
    | some next =>
      let w := viewMoreWalk api pages fuel next
      (r.1 ++ w.1, r.2.1 ++ w.2)

/-- A queued chapter-read action (sourceId, mangaId, sourceChapterId). -/
structure ReadAction where
  sourceId : String
  mangaId : String
  sourceChapterId : String
deriving DecidableEq

/-- The disposition an action receives from the queue processor. -/
inductive Disposition where
  | discard
  | retry
deriving DecidableEq

/-- The per-book read-progress endpoint URL. -/
def readProgressUrl (api chapterId : String) : String :=
  api ++ "/books/" ++ chapterId ++ "/read-progress"

/-- One iteration of processChapterReadActionQueue (Paperback.ts lines 646-681):
a foreign-source action is discarded with no request; otherwise the PATCH is
issued and the action is discarded on status below 400, retried on a failing
status or a thrown error.  Returns the disposition and the requests issued
for this action. -/
def processReadAction (net : String → Except String Nat) (api : String) (a : ReadAction) :
    Disposition × List String :=
  if a.sourceId != "Paperback" then (Disposition.discard, [])
  else
    let url := readProgressUrl api a.sourceChapterId
    match net url with
    | Except.ok status =>
      (if status < 400 then Disposition.discard else Disposition.retry, [url])
    | Except.error _ => (Disposition.retry, [url])

/-- processChapterReadActionQueue (Paperback.ts lines 641-682) over the queued
actions in order. -/
def processChapterReadActionQueue (net : String → Except String Nat) (api : String)
    (queue : List ReadAction) : List (Disposition × List String) :=
  queue.map (processReadAction net api)

/-! Helper lemmas shared by the claim theorems. -/

theorem headerGet_setHeader_same (hs : Headers) (k v : String) :
    headerGet (setHeader hs k v) k = some v := by
  induction hs with
  | nil => simp [setHeader, headerGet]
  | cons p rest ih =>
    cases hh : (p.1 == k) with
    | true => simp [setHeader, headerGet, hh]
    | false => simp [setHeader, headerGet, hh, ih]

theorem applyReqs_markRead_ne (inSeries : String → String → Bool)
    (bs : List Book) (x : String) :
    ∀ st : String → Bool, (∀ b ∈ bs, b.id ≠ x) →
      applyReqs inSeries st (bs.map (fun b => HttpReq.markRead b.id)) x = st x := by
  induction bs with
  | nil => intro st _; rfl
  | cons b rest ih =>
    intro st h
    have hbx : b.id ≠ x := h b (by simp)
    have hx : (x == b.id) = false := by
      simp only [beq_eq_false_iff_ne]
      exact Ne.symm hbx
    have step : applyReqs inSeries st ((b :: rest).map (fun b => HttpReq.markRead b.id)) x =
        applyReqs inSeries (applyReq inSeries st (HttpReq.markRead b.id))
          (rest.map (fun b => HttpReq.markRead b.id)) x := rfl
    rw [step, ih _ (fun b2 hb2 => h b2 (by simp [hb2]))]
    simp [applyReq, hx]

theorem onSubmitRequests_changed (mangaId : String) (p booksReadCount : ℚ)
    (books : List Book) (hne : p ≠ booksReadCount) :
    onSubmitRequests mangaId (some p) booksReadCount (some books) =
      HttpReq.getBooks mangaId :: HttpReq.deleteSeriesProgress mangaId ::
        (books.filter (fun b => decide (b.numberSort ≤ p))).map
          (fun b => HttpReq.markRead b.id) := by
  simp [onSubmitRequests, hne]

theorem pageLoop_all_fresh (time : ℚ) (ids : List JsVal) (content : List UpdSerie) :
    ∀ found : List JsVal, (found.all fun v => !olderThanWatermark time v) = true →
      ((pageLoop time ids content found).1.all fun v => !olderThanWatermark time v) = true := by
  induction content with
  | nil => intro found h; exact h
  | cons serie rest ih =>
    intro found h
    by_cases hle : time ≤ serie.lastModified
    · simp only [pageLoop]
      rw [if_pos hle]
      apply ih
      by_cases hinc : jsIncludes ids (JsVal.serieObj serie) = true
      · rw [if_pos hinc, List.all_append]
        refine (Bool.and_eq_true _ _).mpr ⟨h, ?_⟩
        simp [olderThanWatermark, not_lt.mpr hle]
      · rw [if_neg hinc]; exact h
    · simp only [pageLoop]
      rw [if_neg hle]
      exact h

theorem filterUpdatedWalk_all_fresh (time : ℚ) (ids : List JsVal)
    (pages : List (List UpdSerie)) :
    ∀ found : List JsVal, (found.all fun v => !olderThanWatermark time v) = true →
      ((filterUpdatedWalk time ids pages found).1.all fun v =>
        !olderThanWatermark time v) = true ∧
      ((filterUpdatedWalk time ids pages found).2.all fun cb =>
        (cb.all fun v => !olderThanWatermark time v)) = true := by
  induction pages with
  | nil =>
    intro found h
    refine ⟨h, ?_⟩
    by_cases hf : 0 < found.length
    · simp only [filterUpdatedWalk]
      rw [if_pos hf]
      simp [h]
    · simp only [filterUpdatedWalk]
      rw [if_neg hf]
      rfl
  | cons content rest ih =>
    intro found h
    have hr := pageLoop_all_fresh time ids content found h
    have hcbs : ((if 0 < (pageLoop time ids content found).1.length
        then [(pageLoop time ids content found).1] else []).all fun cb =>
          (cb.all fun v => !olderThanWatermark time v)) = true := by
      by_cases hf : 0 < (pageLoop time ids content found).1.length
      · rw [if_pos hf]; simp [hr]
      · rw [if_neg hf]; rfl
    by_cases hcont : (pageLoop time ids content found).2 = true ∧ content.length ≠ 0
    · have heq : filterUpdatedWalk time ids (content :: rest) found =
          ((filterUpdatedWalk time ids rest (pageLoop time ids content found).1).1,
            (if 0 < (pageLoop time ids content found).1.length
              then [(pageLoop time ids content found).1] else []) ++
              (filterUpdatedWalk time ids rest (pageLoop time ids content found).1).2) := by
        simp only [filterUpdatedWalk]
        rw [if_pos hcont]
      have hw := ih (pageLoop time ids content found).1 hr
      rw [heq]
      exact ⟨hw.1, by simp [List.all_append, hcbs, hw.2]⟩
    · have heq : filterUpdatedWalk time ids (content :: rest) found =
          ((pageLoop time ids content found).1,
            if 0 < (pageLoop time ids content found).1.length
              then [(pageLoop time ids content found).1] else []) := by
        simp only [filterUpdatedWalk]
        rw [if_neg hcont]
      rw [heq]
      exact ⟨hr, hcbs⟩

theorem viewMoreWalk_requests_le (api : String) (pages : Nat → List SerieObj) (k : Nat)
    (hk : pages k = []) :
    ∀ fuel start, start ≤ k → ∀ p ∈ (viewMoreWalk api pages fuel start).1, p ≤ k := by
  intro fuel
  induction fuel with
  | zero =>
    intro start _ p hp
    simp [viewMoreWalk] at hp
  | succ fuel ih =>
    intro start hstart p hp
    by_cases hemp : (pages start).length = 0
    · have h0 : (viewMoreWalk api pages (fuel + 1) start).1 = [start] := by
        simp [viewMoreWalk, getViewMoreItems, hemp]
      rw [h0] at hp
      simp at hp
      omega
    · have hnext : (viewMoreWalk api pages (fuel + 1) start).1 =
          start :: (viewMoreWalk api pages fuel (start + 1)).1 := by
        simp [viewMoreWalk, getViewMoreItems, hemp]
      have hlt : start < k := by
        rcases Nat.lt_or_ge start k with hlt | hge
        · exact hlt
        · have hsk : start = k := le_antisymm hstart hge
          subst hsk
          exact absurd (by simp [hk]) hemp
      rw [hnext] at hp
      rcases List.mem_cons.mp hp with hh | hh
      · omega
      · exact ih (start + 1) hlt p hh

/-! Claim theorems. -/

/-- C1 counterexample: chapters with sortKeys [1,2,3,4], target 2, and chapter
b3 (sortKey 3) read remotely: the submit handler's emitted request sequence
resets b3 to unread via the series-wide read-progress DELETE it issues first,
so the remote read state of a chapter above the target is not left
untouched. -/
theorem c1_untouched_counterexample :
    applyReqs (fun _ _ => true) (fun b => b == "b3")
        (onSubmitRequests "s" (some 2) 0
          (some [⟨"b1", 1⟩, ⟨"b2", 2⟩, ⟨"b3", 3⟩, ⟨"b4", 4⟩])) "b3" = false ∧
    (fun b => b == "b3") "b3" = true :=
  ⟨rfl, rfl⟩

/-- C1 (amended): for a submitted target differing from the stored count, the
handler emits a mark-read mutation for exactly the chapters with
sortKey ≤ target and no chapter-targeted mutation for chapters above the
target; however it first issues a series-wide read-progress DELETE, so
chapters above the target end up unread remotely rather than untouched. -/
theorem c1_reconciliation_amended (mangaId : String) (p booksReadCount : ℚ)
    (books : List Book) (reqs : List HttpReq)
    (hreqs : reqs = onSubmitRequests mangaId (some p) booksReadCount (some books))
    (hne : p ≠ booksReadCount) (hids : (books.map Book.id).Nodup)
    (inSeries : String → String → Bool)
    (hmem : ∀ b ∈ books, inSeries b.id mangaId = true) (st : String → Bool) :
    (∀ b ∈ books, b.numberSort ≤ p → HttpReq.markRead b.id ∈ reqs) ∧
    (∀ b ∈ books, p < b.numberSort → HttpReq.markRead b.id ∉ reqs) ∧
    HttpReq.deleteSeriesProgress mangaId ∈ reqs ∧
    (∀ b ∈ books, p < b.numberSort → applyReqs inSeries st reqs b.id = false) := by
  have hform := onSubmitRequests_changed mangaId p booksReadCount books hne
  subst hreqs
  rw [hform]
  have hinj : ∀ b ∈ books, ∀ b2 ∈ books, b.id = b2.id → b = b2 := by
    intro b hb b2 hb2 hid
    exact List.inj_on_of_nodup_map hids hb hb2 hid
  refine ⟨?_, ?_, ?_, ?_⟩
  · intro b hb hle
    simp only [List.mem_cons, List.mem_map, List.mem_filter]
    right; right
    exact ⟨b, ⟨hb, decide_eq_true hle⟩, rfl⟩
  · intro b hb hgt hmemIn
    simp only [List.mem_cons, List.mem_map, List.mem_filter] at hmemIn
    rcases hmemIn with hh | hh | ⟨b2, ⟨hb2, hq⟩, heq⟩
    · exact HttpReq.noConfusion hh
    · exact HttpReq.noConfusion hh
    · have hid : b2.id = b.id := by injection heq
      have hbb : b2 = b := hinj b2 hb2 b hb hid
      subst hbb
      exact absurd (of_decide_eq_true hq) (not_le.mpr hgt)
  · simp
  · intro b hb hgt
    have hne2 : ∀ b2 ∈ books.filter (fun b => decide (b.numberSort ≤ p)), b2.id ≠ b.id := by
      intro b2 hb2 hid
      rw [List.mem_filter] at hb2
      have hbb : b2 = b := hinj b2 hb2.1 b hb hid
      subst hbb
      exact absurd (of_decide_eq_true hb2.2) (not_le.mpr hgt)
    have e1 : applyReqs inSeries st
        (HttpReq.getBooks mangaId :: HttpReq.deleteSeriesProgress mangaId ::
          (books.filter (fun b => decide (b.numberSort ≤ p))).map
            (fun b => HttpReq.markRead b.id)) b.id =
        applyReqs inSeries
          (applyReq inSeries (applyReq inSeries st (HttpReq.getBooks mangaId))
            (HttpReq.deleteSeriesProgress mangaId))
          ((books.filter (fun b => decide (b.numberSort ≤ p))).map
            (fun b => HttpReq.markRead b.id)) b.id := rfl
    rw [e1, applyReqs_markRead_ne inSeries _ b.id _ hne2]
    simp [applyReq, hmem b hb]

/-- C1 witness: the amended theorem applied at the concrete [1,2,3,4] series
with target 2. -/
theorem c1_reconciliation_amended_witness :
    HttpReq.deleteSeriesProgress "s" ∈
      onSubmitRequests "s" (some 2) 0 (some [⟨"b1", 1⟩, ⟨"b2", 2⟩, ⟨"b3", 3⟩, ⟨"b4", 4⟩]) :=
  (c1_reconciliation_amended "s" 2 0 [⟨"b1", 1⟩, ⟨"b2", 2⟩, ⟨"b3", 3⟩, ⟨"b4", 4⟩] _ rfl
    (by norm_num) (by decide) (fun _ _ => true) (fun b _ => rfl) (fun _ => false)).2.2.1

/-- C5: no identifier whose last-modified time is strictly earlier than the
watermark ever appears in a callback payload of filterUpdatedManga, nor in
its final accumulator. -/
theorem c5_no_stale_ids_reported (time : ℚ) (ids : List String)
    (pages : List (List UpdSerie)) :
    ((filterUpdatedManga time ids pages).1.all fun v => !olderThanWatermark time v) = true ∧
    ((filterUpdatedManga time ids pages).2.all fun cb =>
      (cb.all fun v => !olderThanWatermark time v)) = true :=
  filterUpdatedWalk_all_fresh time (ids.map JsVal.str) pages [] rfl

/-- C6: one call of getViewMoreItems issues exactly one request at the cursor
page, returns the decoded tiles, and advances the cursor by one exactly when
the item count is positive; consequently a walk never requests a page past
the first empty page. -/
theorem c6_view_more_pagination (api : String) (pages : Nat → List SerieObj)
    (md : Option Nat) :
    (getViewMoreItems api pages md).1 = [md.getD 0] ∧
    (getViewMoreItems api pages md).2.1 = (pages (md.getD 0)).map (fun serie =>
      ⟨serie.title, api ++ "/series/" ++ serie.id ++ "/thumbnail", serie.id⟩) ∧
    ((getViewMoreItems api pages md).2.2 = some (md.getD 0 + 1) ↔
      0 < (pages (md.getD 0)).length) ∧
    ((getViewMoreItems api pages md).2.2 = none ↔ (pages (md.getD 0)).length = 0) ∧
    (∀ k, pages k = [] → ∀ fuel p, p ∈ (viewMoreWalk api pages fuel 0).1 → p ≤ k) := by
  refine ⟨rfl, rfl, ?_, ?_, ?_⟩
  · by_cases hemp : (pages (md.getD 0)).length = 0
    · simp [getViewMoreItems, hemp]
    · simp [getViewMoreItems, hemp, Nat.pos_of_ne_zero hemp]
  · by_cases hemp : (pages (md.getD 0)).length = 0
    · simp [getViewMoreItems, hemp]
    · simp [getViewMoreItems, hemp]
  · intro k hk fuel p hp
    exact viewMoreWalk_requests_le api pages k hk fuel 0 (Nat.zero_le k) p hp

/-- C6 witness: a 2-page listing (page 0 has 5 items, page 1 has none): the
walk requests exactly pages 0 and 1, yields all 5 tiles, and by the theorem
every requested page is at most 1. -/
theorem c6_view_more_pagination_witness :
    (viewMoreWalk "api" (fun n => if n = 0 then
        [⟨"s1", "", "t1"⟩, ⟨"s2", "", "t2"⟩, ⟨"s3", "", "t3"⟩, ⟨"s4", "", "t4"⟩,
          ⟨"s5", "", "t5"⟩] else []) 5 0).1 = [0, 1] ∧
    (viewMoreWalk "api" (fun n => if n = 0 then
        [⟨"s1", "", "t1"⟩, ⟨"s2", "", "t2"⟩, ⟨"s3", "", "t3"⟩, ⟨"s4", "", "t4"⟩,
          ⟨"s5", "", "t5"⟩] else []) 5 0).2.length = 5 ∧
    (1 : Nat) ≤ 1 :=
  ⟨by decide, by decide,
    (c6_view_more_pagination "api" (fun n => if n = 0 then
        [⟨"s1", "", "t1"⟩, ⟨"s2", "", "t2"⟩, ⟨"s3", "", "t3"⟩, ⟨"s4", "", "t4"⟩,
          ⟨"s5", "", "t5"⟩] else []) none).2.2.2.2 1 rfl 5 1 (by decide)⟩

/-- C7: on a successful tag-catalog fetch, the collections section is omitted
from the result exactly when the server reports one or fewer collections, and
is present with one tag per collection when it reports two or more. -/
theorem c7_collections_suppression (genres tagsList : List String)
    (colls libs : List NamedItem) :
    (colls.length ≤ 1 →
      ((getTagsSections genres tagsList colls libs).all fun s =>
        s.label != "collections") = true) ∧
    (2 ≤ colls.length →
      (⟨"2", "collections",
        colls.map fun e => ⟨"collection-" ++ e.id, capitalize e.name⟩⟩ : TagSection) ∈
          getTagsSections genres tagsList colls libs ∧
      (colls.map fun e => (⟨"collection-" ++ e.id, capitalize e.name⟩ : Tag)).length =
        colls.length) := by
  constructor
  · intro h
    simp only [getTagsSections]
    rw [if_pos h]
    rfl
  · intro h
    have hn : ¬ colls.length ≤ 1 := by omega
    refine ⟨?_, by simp⟩
    simp only [getTagsSections]
    rw [if_neg hn]
    exact List.mem_cons_of_mem _ (List.mem_cons_of_mem _ (List.mem_cons_self _ _))

/-- C7 witness: one collection suppresses the section, two keep it. -/
theorem c7_collections_suppression_witness :
    ((getTagsSections [] [] [⟨"c1", "alpha"⟩] []).all fun s =>
      s.label != "collections") = true ∧
    (⟨"2", "collections",
      [(⟨"c1", "alpha"⟩ : NamedItem), ⟨"c2", "beta"⟩].map fun e =>
        ⟨"collection-" ++ e.id, capitalize e.name⟩⟩ : TagSection) ∈
      getTagsSections [] [] [⟨"c1", "alpha"⟩, ⟨"c2", "beta"⟩] [] :=
  ⟨(c7_collections_suppression [] [] [⟨"c1", "alpha"⟩] []).1 (by decide),
    ((c7_collections_suppression [] [] [⟨"c1", "alpha"⟩, ⟨"c2", "beta"⟩] []).2
      (by decide)).1⟩

/-- C9: every queued action receives exactly one disposition in order:
foreign-source actions are discarded with no request issued for them,
successful writes (status below 400) are discarded, and failing or throwing
writes are retried. -/
theorem c9_queue_dispositions (net : String → Except String Nat) (api : String)
    (a : ReadAction) (queue : List ReadAction) :
    (processChapterReadActionQueue net api queue).length = queue.length ∧
    (∀ i : Nat, (processChapterReadActionQueue net api queue)[i]? =
      queue[i]?.map (processReadAction net api)) ∧
    (a.sourceId ≠ "Paperback" → processReadAction net api a = (Disposition.discard, [])) ∧
    (∀ status, a.sourceId = "Paperback" →
      net (readProgressUrl api a.sourceChapterId) = Except.ok status →
      processReadAction net api a =
        (if status < 400 then Disposition.discard else Disposition.retry,
          [readProgressUrl api a.sourceChapterId])) ∧
    (∀ e, a.sourceId = "Paperback" →
      net (readProgressUrl api a.sourceChapterId) = Except.error e →
      processReadAction net api a =
        (Disposition.retry, [readProgressUrl api a.sourceChapterId])) := by
  refine ⟨by simp [processChapterReadActionQueue], ?_, ?_, ?_, ?_⟩
  · intro i
    simp [processChapterReadActionQueue, List.getElem?_map]
  · intro h
    simp [processReadAction, h]
  · intro status h1 h2
    simp [processReadAction, h1, h2]
  · intro e h1 h2
    simp [processReadAction, h1, h2]

/-- C9 witness: a foreign-source action, a successful write, a failing status
and a thrown transport error, each receiving its single disposition. -/
theorem c9_queue_dispositions_witness :
    processReadAction (fun _ => Except.error "down") "api" ⟨"MangaDex", "m1", "c1"⟩ =
      (Disposition.discard, []) ∧
    processReadAction (fun _ => Except.ok 204) "api" ⟨"Paperback", "m2", "ch2"⟩ =
      (Disposition.discard, [readProgressUrl "api" "ch2"]) ∧
    processReadAction (fun _ => Except.ok 500) "api" ⟨"Paperback", "m3", "ch3"⟩ =
      (Disposition.retry, [readProgressUrl "api" "ch3"]) ∧
    processReadAction (fun _ => Except.error "down") "api" ⟨"Paperback", "m4", "ch4"⟩ =
      (Disposition.retry, [readProgressUrl "api" "ch4"]) :=
  ⟨(c9_queue_dispositions (fun _ => Except.error "down") "api" ⟨"MangaDex", "m1", "c1"⟩
      []).2.2.1 (by decide),
    by simpa using (c9_queue_dispositions (fun _ => Except.ok 204) "api"
      ⟨"Paperback", "m2", "ch2"⟩ []).2.2.2.1 204 rfl rfl,
    by simpa using (c9_queue_dispositions (fun _ => Except.ok 500) "api"
      ⟨"Paperback", "m3", "ch3"⟩ []).2.2.2.1 500 rfl rfl,
    (c9_queue_dispositions (fun _ => Except.error "down") "api"
      ⟨"Paperback", "m4", "ch4"⟩ []).2.2.2.2 "down" rfl rfl⟩

/-! Remaining claim theorems. -/

/-- C2: evaluated at a configured server whose every scheduled call rejects
with a transport error, getTags returns the placeholder result without
raising, but getHomePageSections propagates the rejection through the awaited
Promise.all because the per-section fetches have no catch of their own — it
does raise, contrary to the claim and to the code comment that it should not
throw when the server is unavailable.  At an unconfigured server both
operations degrade as claimed. -/
theorem c2_resiliency_divergence :
    getTags { komgaAPI := some "http://komga", fetch := fun _ => Except.error "TransportError" } =
      Except.ok [serverUnavailableSection] ∧
    getHomePageSections
        { komgaAPI := some "http://komga", fetch := fun _ => Except.error "TransportError" }
        ⟨false, false⟩ = Except.error "TransportError" ∧
    getTags { komgaAPI := none, fetch := fun _ => Except.error "TransportError" } =
      Except.ok [serverUnavailableSection] ∧
    getHomePageSections { komgaAPI := none, fetch := fun _ => Except.error "TransportError" }
        ⟨false, false⟩ = Except.ok [HomeEvent.unsetSection serverUnavailableMangaTiles] :=
  ⟨rfl, rfl, rfl, rfl⟩

/-- C3 counterexample: the bundled tracker interceptor, with stored credentials
present, rebuilds the header object with the authorization spread last, so a
caller-supplied authorization header is overwritten with the stored value. -/
theorem c3_tracker_overwrite_counterexample :
    trackerInterceptRequest (some "Basic stored") (some [("authorization", "Basic caller")]) =
      Except.ok [("authorization", "Basic stored"), ("content-type", "application/json"),
        ("accept", "application/json")] ∧
    ("Basic stored" : String) ≠ "Basic caller" :=
  ⟨rfl, by decide⟩

/-- C3 (amended): the source plugin interceptor sets the authorization header
from the stored credentials when it is absent and never overwrites a present
one; the bundled tracker interceptor, given stored credentials, always sets
the authorization header to the stored value, overwriting any caller-supplied
header. -/
theorem c3_auth_header_amended (auth : String) (hs : Headers) :
    (headerGet hs "authorization" = none →
      headerGet (interceptRequest auth (some hs)) "authorization" = some auth) ∧
    (∀ v, headerGet hs "authorization" = some v → interceptRequest auth (some hs) = hs) ∧
    headerGet (interceptRequest auth none) "authorization" = some auth ∧
    ∃ out, trackerInterceptRequest (some auth) (some hs) = Except.ok out ∧
      headerGet out "authorization" = some auth := by
  refine ⟨?_, ?_, ?_, ?_⟩
  · intro h
    simp [interceptRequest, h, headerGet_setHeader_same]
  · intro v h
    simp [interceptRequest, h]
  · simp [interceptRequest, headerGet, headerGet_setHeader_same]
  · exact ⟨_, rfl, headerGet_setHeader_same _ _ _⟩

/-- C3 witness: concrete header sets for the two source-interceptor branches. -/
theorem c3_auth_header_amended_witness :
    headerGet (interceptRequest "Basic xyz" (some [("x-test", "1")])) "authorization" =
      some "Basic xyz" ∧
    interceptRequest "Basic xyz" (some [("authorization", "Basic abc")]) =
      [("authorization", "Basic abc")] :=
  ⟨(c3_auth_header_amended "Basic xyz" [("x-test", "1")]).1 rfl,
    (c3_auth_header_amended "Basic xyz" [("authorization", "Basic abc")]).2.1 "Basic abc" rfl⟩

/-- C4: evaluated at the failing input — watermark 5, candidate ids [a], page 0
holding the series with id a last modified at 10 (at or after the watermark),
page 1 empty.  The claim expects id a to be accumulated and reported; the code
tests ids.includes(serie) with the freshly parsed series object itself, never
its id string, so the test never holds, nothing is accumulated, and the
callback never fires. -/
theorem c4_filter_updated_divergence :
    filterUpdatedManga 5 ["a"] [[⟨"a", 10⟩], []] = ([], []) ∧
    (5 : ℚ) ≤ 10 ∧ "a" ∈ ["a"] :=
  ⟨rfl, by norm_num, by simp⟩

/-- C8: normalization applied to a string body holding valid JSON equals
normalization applied to the already-decoded structure, and a non-string body
is returned unchanged with no failure path. -/
theorem c8_normalize_predecode {J : Type} (parse : String → Option J) (s : String) (v : J)
    (h : parse s = some v) :
    normalizeResp parse (RawBody.str s) = normalizeResp parse (RawBody.decoded v) ∧
    ∀ w : J, normalizeResp parse (RawBody.decoded w) = some w :=
  ⟨by simp [normalizeResp, h], fun _ => rfl⟩

/-- C8 witness: the identity decoder on a concrete string. -/
theorem c8_normalize_predecode_witness :
    (fun t => some t) "x" = some "x" ∧
    normalizeResp (fun t => some t) (RawBody.str "x") =
      normalizeResp (fun t => some t) (RawBody.decoded "x") :=
  ⟨rfl, (c8_normalize_predecode (fun t => some t) "x" "x" rfl).1⟩

/-- C10: when the submitted progress value is absent or equals the
booksReadCount captured when the form was built, the submit handler issues no
request at all — no chapter-list fetch and no mutation. -/
theorem c10_no_change_guard (mangaId : String) (progress : Option ℚ) (booksReadCount : ℚ)
    (booksContent : Option (List Book))
    (h : progress = none ∨ progress = some booksReadCount) :
    onSubmitRequests mangaId progress booksReadCount booksContent = [] := by
  rcases h with h | h <;> subst h <;> simp [onSubmitRequests]

/-- C10 witness: concrete submissions hitting both sides of the guard. -/
theorem c10_no_change_guard_witness :
    onSubmitRequests "series1" (some 3) 3 (some [⟨"b1", 1⟩]) = [] ∧
    onSubmitRequests "series1" none 3 (some [⟨"b1", 1⟩]) = [] :=
  ⟨c10_no_change_guard "series1" (some 3) 3 (some [⟨"b1", 1⟩]) (Or.inr rfl),
    c10_no_change_guard "series1" none 3 (some [⟨"b1", 1⟩]) (Or.inl rfl)⟩

end Komga
